import Mathlib

/-!
# Verification of the esphome-keymaker core

Shallow embedding of the two source files of the repository:

* `esphome_keys/__init__.py` — deterministic secret derivation
  (HMAC-SHA-256 over `"{label}:{device_name}"`, base64 output);
* `gen_secrets.py` — device-identity resolution over parsed YAML
  documents and the non-destructive merge of newly derived entries
  into an existing secrets mapping.

Bytes are modelled as `Nat` values below 256, 32-bit words as `Nat`
reduced modulo `2 ^ 32` at every arithmetic step, byte strings as
`List Nat`, and Python strings as Lean `String`.
-/

namespace EsphomeKeymaker

/-! ## UTF-8 encoding (Python `str.encode("utf-8")`) -/

/-- UTF-8 encoding of a single code point, as the list of its bytes. -/
def utf8Char (c : Char) : List Nat :=
  let n := c.toNat
  if n < 0x80 then [n]
  else if n < 0x800 then
    [0xC0 ||| (n >>> 6), 0x80 ||| (n % 64)]
  else if n < 0x10000 then
    [0xE0 ||| (n >>> 12), 0x80 ||| ((n >>> 6) % 64), 0x80 ||| (n % 64)]
  else
    [0xF0 ||| (n >>> 18), 0x80 ||| ((n >>> 12) % 64),
     0x80 ||| ((n >>> 6) % 64), 0x80 ||| (n % 64)]

/-- UTF-8 encoding of a string: the concatenation of the encodings of
its characters. -/
def utf8Encode (s : String) : List Nat :=
  s.data.foldr (fun c acc => utf8Char c ++ acc) []

/-! ## SHA-256 (FIPS 180-4), on `Nat` bytes and words mod `2 ^ 32` -/

/-- Word-sized addition: sum reduced modulo `2 ^ 32`. -/
def add32 (a b : Nat) : Nat := (a + b) % 4294967296

/-- Right rotation of a 32-bit word by `n` places. -/
def rotr (n x : Nat) : Nat := ((x >>> n) ||| (x <<< (32 - n))) % 4294967296

/-- The eight initial SHA-256 hash values, as a record so the digest
length is fixed by construction. -/
structure Sha8 where
  a : Nat
  b : Nat
  c : Nat
  d : Nat
  e : Nat
  f : Nat
  g : Nat
  h : Nat

/-- SHA-256 initial state `H0` (FIPS 180-4 §5.3.3, written in
decimal). -/
def initH : Sha8 :=
  ⟨1779033703, 3144134277, 1013904242, 2773480762,
   1359893119, 2600822924, 528734635, 1541459225⟩

/-- The 64 SHA-256 round constants `K` (FIPS 180-4 §4.2.2, written in
decimal). -/
def sha256K : List Nat :=
  [1116352408, 1899447441, 3049323471, 3921009573, 961987163, 1508970993,
   2453635748, 2870763221, 3624381080, 310598401, 607225278, 1426881987,
   1925078388, 2162078206, 2614888103, 3248222580, 3835390401, 4022224774,
   264347078, 604807628, 770255983, 1249150122, 1555081692, 1996064986,
   2554220882, 2821834349, 2952996808, 3210313671, 3336571891, 3584528711,
   113926993, 338241895, 666307205, 773529912, 1294757372, 1396182291,
   1695183700, 1986661051, 2177026350, 2456956037, 2730485921, 2820302411,
   3259730800, 3345764771, 3516065817, 3600352804, 4094571909, 275423344,
   430227734, 506948616, 659060556, 883997877, 958139571, 1322822218,
   1537002063, 1747873779, 1955562222, 2024104815, 2227730452, 2361852424,
   2428436474, 2756734187, 3204031479, 3329325298]

/-- Group a byte list into big-endian 32-bit words (trailing partial
group dropped; the input is always a whole number of words). -/
def beWords : List Nat → List Nat
  | a :: b :: c :: d :: rest =>
      ((a <<< 24) ||| (b <<< 16) ||| (c <<< 8) ||| d) :: beWords rest
  | _ => []

/-- Big-endian 8-byte serialization of a 64-bit length field. -/
def be64 (n : Nat) : List Nat :=
  [(n >>> 56) % 256, (n >>> 48) % 256, (n >>> 40) % 256, (n >>> 32) % 256,
   (n >>> 24) % 256, (n >>> 16) % 256, (n >>> 8) % 256, n % 256]

/-- SHA-256 padding: `0x80`, zeros to 56 mod 64, then the bit length. -/
def sha256Pad (msg : List Nat) : List Nat :=
  let len := msg.length
  let zeros := (64 + 55 - len % 64) % 64
  msg ++ [0x80] ++ List.replicate zeros 0 ++ be64 (len * 8)

/-- Split a list into chunks of 64 elements. -/
def chunks64 : List Nat → List (List Nat)
  | [] => []
  | x :: xs => (x :: xs).take 64 :: chunks64 ((x :: xs).drop 64)
termination_by l => l.length
decreasing_by
  simp [List.length_drop]
  omega

/-- Extend a 16-word message schedule by `k` further words. -/
def extendSchedule (w : List Nat) : Nat → List Nat
  | 0 => w
  | k + 1 =>
      let t := w.length
      let x15 := w.getD (t - 15) 0
      let x2 := w.getD (t - 2) 0
      let s0 := (rotr 7 x15 ^^^ rotr 18 x15 ^^^ (x15 >>> 3)) % 4294967296
      let s1 := (rotr 17 x2 ^^^ rotr 19 x2 ^^^ (x2 >>> 10)) % 4294967296
      extendSchedule
        (w ++ [add32 (add32 (add32 (w.getD (t - 16) 0) s0) (w.getD (t - 7) 0)) s1]) k

/-- The 64-word message schedule of one 64-byte block. -/
def schedule (block : List Nat) : List Nat :=
  extendSchedule (beWords block) 48

/-- One SHA-256 compression round. -/
def sha256Round (w : List Nat) (t : Nat) (st : Sha8) : Sha8 :=
  let s1 := (rotr 6 st.e ^^^ rotr 11 st.e ^^^ rotr 25 st.e) % 4294967296
  let ch := ((st.e &&& st.f) ^^^ ((st.e ^^^ 4294967295) &&& st.g)) % 4294967296
  let temp1 := add32 (add32 (add32 (add32 st.h s1) ch) (sha256K.getD t 0)) (w.getD t 0)
  let s0 := (rotr 2 st.a ^^^ rotr 13 st.a ^^^ rotr 22 st.a) % 4294967296
  let maj := ((st.a &&& st.b) ^^^ (st.a &&& st.c) ^^^ (st.b &&& st.c)) % 4294967296
  let temp2 := add32 s0 maj
  ⟨add32 temp1 temp2, st.a, st.b, st.c, add32 st.d temp1, st.e, st.f, st.g⟩

/-- Run compression rounds `t, t+1, …` for `fuel` steps. -/
def sha256Rounds (w : List Nat) (st : Sha8) (t : Nat) : Nat → Sha8
  | 0 => st
  | fuel + 1 => sha256Rounds w (sha256Round w t st) (t + 1) fuel

/-- Componentwise word addition of two states. -/
def addState (x y : Sha8) : Sha8 :=
  ⟨add32 x.a y.a, add32 x.b y.b, add32 x.c y.c, add32 x.d y.d,
   add32 x.e y.e, add32 x.f y.f, add32 x.g y.g, add32 x.h y.h⟩

/-- Process one padded 64-byte block. -/
def sha256Block (st : Sha8) (block : List Nat) : Sha8 :=
  addState st (sha256Rounds (schedule block) st 0 64)

/-- Big-endian 4-byte serialization of a word. -/
def wordBytes (w : Nat) : List Nat :=
  [(w >>> 24) % 256, (w >>> 16) % 256, (w >>> 8) % 256, w % 256]

/-- The 32 digest bytes of a final state. -/
def sha8Bytes (st : Sha8) : List Nat :=
  wordBytes st.a ++ wordBytes st.b ++ wordBytes st.c ++ wordBytes st.d ++
  wordBytes st.e ++ wordBytes st.f ++ wordBytes st.g ++ wordBytes st.h

/-- SHA-256 of a byte string, as its 32 digest bytes. -/
def sha256 (msg : List Nat) : List Nat :=
  sha8Bytes ((chunks64 (sha256Pad msg)).foldl sha256Block initH)

/-! ## HMAC-SHA-256 (RFC 2104 / Python `hmac` with `hashlib.sha256`) -/

/-- The HMAC key normalized to the 64-byte block size: a key longer
than one block is hashed first, then the key is zero-padded to 64. -/
def hmacKeyBlock (key : List Nat) : List Nat :=
  let k0 := if 64 < key.length then sha256 key else key
  k0 ++ List.replicate (64 - k0.length) 0

/-- HMAC-SHA-256:
`H((K0 xor opad) ++ H((K0 xor ipad) ++ msg))` with `ipad = 0x36`,
`opad = 0x5c`. -/
def hmacSha256 (key msg : List Nat) : List Nat :=
  let k0 := hmacKeyBlock key
  let inner := sha256 ((k0.map (fun b => b ^^^ 0x36)) ++ msg)
  sha256 ((k0.map (fun b => b ^^^ 0x5c)) ++ inner)

/-! ## Standard base64 encoding (Python `base64.b64encode`) -/

/-- The standard (non-URL-safe) base64 alphabet, indexed 0–63. -/
def b64char (n : Nat) : Char :=
  "ABCDEFGHIJKLMNOPQRSTUVWXYZabcdefghijklmnopqrstuvwxyz0123456789+/".data.getD n
    (Char.ofNat 65)

/-- Standard base64 encoding of a byte list, with `=` padding, as the
list of output characters. -/
def b64encodeList : List Nat → List Char
  | [] => []
  | [a] => [b64char (a >>> 2), b64char ((a % 4) <<< 4), '=', '=']
  | [a, b] => [b64char (a >>> 2), b64char (((a % 4) <<< 4) ||| (b >>> 4)),
               b64char ((b % 16) <<< 2), '=']
  | a :: b :: c :: rest =>
      b64char (a >>> 2) :: b64char (((a % 4) <<< 4) ||| (b >>> 4)) ::
      b64char (((b % 16) <<< 2) ||| (c >>> 6)) :: b64char (c % 64) ::
      b64encodeList rest

/-- `base64.b64encode(bs).decode("ascii")`. -/
def b64encode (bs : List Nat) : String := String.mk (b64encodeList bs)

/-! ## `esphome_keys/__init__.py` -/

/-- The `BytesLike` union of the source: `str`, `bytes` or
`bytearray`. -/
inductive BytesLike where
  | str (s : String)
  | bytes (b : List Nat)
  | byteArr (b : List Nat)

/-- `_as_bytes`: `bytes`/`bytearray` pass through, anything else is
UTF-8 encoded via `str(x).encode("utf-8")`. -/
def _as_bytes : BytesLike → List Nat
  | .str s => utf8Encode s
  | .bytes b => b
  | .byteArr b => b

/-- `_derive`: `hmac.new(_as_bytes(master_secret),
_as_bytes(f"{label}:{device_name}"), hashlib.sha256).digest()`. -/
def _derive (label device_name : String) (master_secret : BytesLike) : List Nat :=
  hmacSha256 (_as_bytes master_secret) (_as_bytes (.str (label ++ ":" ++ device_name)))

/-- `derive_api_key`: base64 of the `"api"`-labelled digest. -/
def derive_api_key (device_name : String) (master_secret : BytesLike) : String :=
  b64encode (_derive "api" device_name master_secret)

/-- `derive_ota_password`: base64 of the `"ota"`-labelled digest,
sliced to `b64[:max(8, length)]`. The Python default for `length`
is 32. Slicing a Python `str` is modelled as `List.take` on its
characters. -/
def derive_ota_password (device_name : String) (master_secret : BytesLike)
    (length : Nat) : String :=
  String.mk ((b64encodeList (_derive "ota" device_name master_secret)).take (max 8 length))

/-! ## Parsed YAML documents (`yaml.safe_load` output shape)

A parsed document is modelled as a recursive value over the shapes
the scripts inspect: null, booleans, integers, strings, sequences
and mappings (mapping keys restricted to strings, as in every lookup
the source performs). -/

inductive Yaml where
  | null
  | bool (b : Bool)
  | int (n : Int)
  | str (s : String)
  | list (xs : List Yaml)
  | map (kvs : List (String × Yaml))

/-- Python truthiness (`bool(x)`): `None`, `False`, `0`, the empty
string and empty containers are falsy. -/
def pyTruthy : Yaml → Bool
  | .null => false
  | .bool b => b
  | .int n => n != 0
  | .str s => s != ""
  | .list xs => !xs.isEmpty
  | .map kvs => !kvs.isEmpty

/-- The apostrophe character used by Python `repr` around strings. -/
def squote : Char := Char.ofNat 39

/-- Python `repr` of a string: quoted. (Escaping of quotes, control
characters and backslashes inside the string is not reproduced; no
claim evaluates `repr` on such a string.) -/
def strReprQ (s : String) : String := String.mk (squote :: (s.data ++ [squote]))

/-- Decimal digit character. -/
def digitChar (n : Nat) : Char := Char.ofNat (48 + n)

/-- Decimal digits of a natural number, most significant first. -/
def natStrAux (n : Nat) : List Char :=
  if n < 10 then [digitChar n]
  else natStrAux (n / 10) ++ [digitChar (n % 10)]
termination_by n
decreasing_by exact Nat.div_lt_self (by omega) (by omega)

/-- Python `str` of an integer. -/
def intStr : Int → String
  | .ofNat m => String.mk (natStrAux m)
  | .negSucc m => "-" ++ String.mk (natStrAux (m + 1))

mutual
/-- Python `repr` of a parsed value. -/
def pyRepr : Yaml → String
  | .null => "None"
  | .bool b => if b then "True" else "False"
  | .int n => intStr n
  | .str s => strReprQ s
  | .list xs => "[" ++ pyReprItems xs ++ "]"
  | .map kvs => "\x7b" ++ pyReprPairs kvs ++ "\x7d"

/-- Comma-separated `repr`s of list items. -/
def pyReprItems : List Yaml → String
  | [] => ""
  | [x] => pyRepr x
  | x :: y :: rest => pyRepr x ++ ", " ++ pyReprItems (y :: rest)

/-- Comma-separated `repr`s of mapping pairs. -/
def pyReprPairs : List (String × Yaml) → String
  | [] => ""
  | [(k, v)] => strReprQ k ++ ": " ++ pyRepr v
  | (k, v) :: p :: rest => strReprQ k ++ ": " ++ pyRepr v ++ ", " ++ pyReprPairs (p :: rest)
end

/-- Python `str` of a parsed value: the string itself for a `str`,
otherwise its `repr`. -/
def pyStr : Yaml → String
  | .str s => s
  | v => pyRepr v

/-- `d.get(k)` guarded by `isinstance(d, dict)`: a lookup on a
mapping, `None` (absent) on any other shape. -/
def dictGet : Yaml → String → Option Yaml
  | .map kvs, k => kvs.lookup k
  | _, _ => none

/-- Truthiness of a possibly-absent value (`not name` on the result
of `dict.get`): absent is falsy. -/
def truthyOpt : Option Yaml → Bool
  | none => false
  | some v => pyTruthy v

/-! ## `gen_secrets.py`: device identity resolution -/

/-- The value `name` holds after the `substitutions` block: `name =
subs.get("name")`, then `name = subs.get("device_name") if not name
else name`, with `subs = doc.get("substitutions") if isinstance(doc,
dict) else None` and the block guarded by `isinstance(subs, dict)`. -/
def subsCandidate (doc : Yaml) : Option Yaml :=
  match dictGet doc "substitutions" with
  | some (.map skvs) =>
      let n := skvs.lookup "name"
      if truthyOpt n then n else skvs.lookup "device_name"
  | _ => none

/-- The value `name` holds after the `if not name:` esphome block,
given its prior value `name1`: `name = esphome.get("name")` when
`esphome` is a mapping, otherwise `name` is left unchanged. -/
def esphomeCandidate (doc : Yaml) (name1 : Option Yaml) : Option Yaml :=
  match dictGet doc "esphome" with
  | some (.map ekvs) => ekvs.lookup "name"
  | _ => name1

/-- `find_device_identity(doc, path)`, with `path.stem` passed in as
`stem`. Returns `(device_name, substitutions-mapping-or-None)`:
the substitutions chain (`subsCandidate`), then — `if not name:` —
the esphome chain (`esphomeCandidate`), then — `if not name:` — the
file-name stem; finally `str(name)`. -/
def find_device_identity (doc : Yaml) (stem : String) :
    String × Option (List (String × Yaml)) :=
  let name1 := subsCandidate doc
  let name2 : Option Yaml :=
    if truthyOpt name1 then name1 else esphomeCandidate doc name1
  let nameStr : String :=
    match name2 with
    | some v => if pyTruthy v then pyStr v else stem
    | none => stem
  (nameStr,
   match dictGet doc "substitutions" with
   | some (.map skvs) => some skvs
   | _ => none)

/-! ## `gen_secrets.py`: secret set builder (the `main` loop) -/

/-- Python `str.isspace` characters (the set `str.strip()` removes). -/
def pyIsSpace (c : Char) : Bool :=
  let n := c.toNat
  (0x09 ≤ n && n ≤ 0x0d) || n == 0x20 || (0x1c ≤ n && n ≤ 0x1f) ||
  n == 0x85 || n == 0xa0 || n == 0x1680 || (0x2000 ≤ n && n ≤ 0x200a) ||
  n == 0x2028 || n == 0x2029 || n == 0x202f || n == 0x205f || n == 0x3000

/-- Python `str.strip()`: whitespace removed from both ends. -/
def pyStrip (s : String) : String :=
  String.mk (((s.data.dropWhile pyIsSpace).reverse.dropWhile pyIsSpace).reverse)

/-- The `--mode` choices of the argument parser. -/
inductive Mode where
  | api
  | ota
deriving DecidableEq

/-- The mode as the string `args.mode` holds. -/
def modeString : Mode → String
  | .api => "api"
  | .ota => "ota"

/-- `secret_key_name = args.mode + "-" + str(device_name).strip()`. -/
def secretKeyName (mode : Mode) (device_name : String) : String :=
  modeString mode ++ "-" ++ pyStrip device_name

/-- The derived value per mode: `derive_api_key(device_name,
master_secret)` or `derive_ota_password(device_name, master_secret)`
(Python default `length=32`). -/
def deriveValue (mode : Mode) (device_name master_secret : String) : String :=
  match mode with
  | .api => derive_api_key device_name (.str master_secret)
  | .ota => derive_ota_password device_name (.str master_secret) 32

/-- Python dict assignment `m[k] = v`: replace the value at an
existing key in place, else append the new pair. -/
def dictSet (m : List (String × String)) (k v : String) : List (String × String) :=
  match m with
  | [] => [(k, v)]
  | (k0, v0) :: rest => if k0 == k then (k0, v) :: rest else (k0, v0) :: dictSet rest k v

/-- Python `m.update(adds)`: assign every pair of `adds` in order. -/
def dictUpdate (m adds : List (String × String)) : List (String × String) :=
  adds.foldl (fun acc kv => dictSet acc kv.1 kv.2) m

/-- One iteration of the scan loop of `main`, accumulating `new_kv`.
A document that is not a mapping is skipped (`continue`); a
`secret_key_name` already in `existing` is skipped without deriving;
otherwise `new_kv[secret_key_name] = secret_value`. -/
def buildStep (existing : List (String × String)) (mode : Mode)
    (master_secret : String) (new_kv : List (String × String))
    (item : Yaml × String) : List (String × String) :=
  match item.1 with
  | .map kvs =>
      let device_name := (find_device_identity (.map kvs) item.2).1
      let key := secretKeyName mode device_name
      if (existing.lookup key).isSome then new_kv
      else dictSet new_kv key (deriveValue mode device_name master_secret)
  | _ => new_kv

/-- The `new_kv` mapping after scanning all documents (each given
with its file-name stem), in discovery order. -/
def buildNewKv (existing : List (String × String)) (mode : Mode)
    (master_secret : String) (devices : List (Yaml × String)) :
    List (String × String) :=
  devices.foldl (buildStep existing mode master_secret) []

/-- `out_map = dict(existing); out_map.update(new_kv)`. -/
def outMap (existing : List (String × String)) (mode : Mode)
    (master_secret : String) (devices : List (Yaml × String)) :
    List (String × String) :=
  dictUpdate existing (buildNewKv existing mode master_secret devices)

/-! ## Helper lemmas: digest and encoding lengths -/

theorem sha8Bytes_length (st : Sha8) : (sha8Bytes st).length = 32 := rfl

theorem sha256_length (msg : List Nat) : (sha256 msg).length = 32 :=
  sha8Bytes_length _

theorem hmacSha256_length (key msg : List Nat) : (hmacSha256 key msg).length = 32 :=
  sha256_length _

theorem b64_sha8_length (st : Sha8) : (b64encodeList (sha8Bytes st)).length = 44 := rfl

theorem b64_sha256_length (msg : List Nat) :
    (b64encodeList (sha256 msg)).length = 44 :=
  b64_sha8_length _

theorem b64_hmac_length (key msg : List Nat) :
    (b64encodeList (hmacSha256 key msg)).length = 44 :=
  b64_sha256_length _

theorem b64_derive_length (label device_name : String) (s : BytesLike) :
    (b64encodeList (_derive label device_name s)).length = 44 :=
  b64_hmac_length _ _

theorem derive_api_key_length (d : String) (s : BytesLike) :
    (derive_api_key d s).length = 44 :=
  b64_derive_length "api" d s

/-! ## Helper lemmas: strings and Python truthiness -/

theorem mk_ne_empty {l : List Char} (h : l ≠ []) : String.mk l ≠ "" := by
  intro e
  exact h (by simpa using congrArg String.data e)

theorem ne_empty_of_length_pos {s : String} (h : 0 < s.length) : s ≠ "" := by
  intro e
  rw [e] at h
  exact Nat.lt_irrefl 0 h

theorem natStrAux_ne_nil (n : Nat) : natStrAux n ≠ [] := by
  unfold natStrAux
  split <;> simp

theorem append_ne_empty_right (a b : String) (h : b ≠ "") : a ++ b ≠ "" := by
  apply ne_empty_of_length_pos
  rw [String.length_append]
  have hb : 0 < b.length := by
    rcases Nat.eq_zero_or_pos b.length with h0 | h0
    · exact absurd (by
        cases b with
        | mk l =>
          cases l with
          | nil => rfl
          | cons c l => simp [String.length] at h0) h
    · exact h0
  omega

theorem truthy_pyStr_ne_empty {v : Yaml} (h : pyTruthy v = true) : pyStr v ≠ "" := by
  cases v with
  | null => simp [pyTruthy] at h
  | bool b =>
      cases b with
      | false => simp [pyTruthy] at h
      | true => decide
  | int n =>
      cases n with
      | ofNat m => exact mk_ne_empty (natStrAux_ne_nil m)
      | negSucc m =>
          exact append_ne_empty_right "-" _ (mk_ne_empty (natStrAux_ne_nil (m + 1)))
  | str s => simpa [pyTruthy] using h
  | list xs =>
      show "[" ++ pyReprItems xs ++ "]" ≠ ""
      exact append_ne_empty_right _ "]" (by decide)
  | map kvs =>
      show "\x7b" ++ pyReprPairs kvs ++ "\x7d" ≠ ""
      exact append_ne_empty_right _ "\x7d" (by decide)

theorem dropWhile_all_false {p : Char → Bool} :
    ∀ {l : List Char}, (∀ c ∈ l, p c = false) → l.dropWhile p = l
  | [], _ => rfl
  | a :: l, h => by simp [List.dropWhile_cons, h a (by simp)]

theorem pyStrip_eq_self {d : String} (h : ∀ c ∈ d.data, pyIsSpace c = false) :
    pyStrip d = d := by
  unfold pyStrip
  rw [dropWhile_all_false h, dropWhile_all_false (by simpa using h),
    List.reverse_reverse]

/-! ## Helper lemmas: identity resolution -/

theorem subsCandidate_of_name {doc : Yaml} {skvs : List (String × Yaml)} {v : Yaml}
    (h : dictGet doc "substitutions" = some (.map skvs))
    (hn : skvs.lookup "name" = some v) (ht : pyTruthy v = true) :
    subsCandidate doc = some v := by
  simp [subsCandidate, h, hn, truthyOpt, ht]

theorem subsCandidate_of_devname {doc : Yaml} {skvs : List (String × Yaml)} {v : Yaml}
    (h : dictGet doc "substitutions" = some (.map skvs))
    (hn : truthyOpt (skvs.lookup "name") = false)
    (hd : skvs.lookup "device_name" = some v) :
    subsCandidate doc = some v := by
  simp [subsCandidate, h, hn, hd]

theorem subsCandidate_of_nonmap {doc : Yaml} {s : Yaml}
    (h : dictGet doc "substitutions" = some s) (hs : ∀ skvs, s ≠ .map skvs) :
    subsCandidate doc = none := by
  unfold subsCandidate
  rw [h]
  cases s with
  | map skvs => exact absurd rfl (hs skvs)
  | null => rfl
  | bool b => rfl
  | int n => rfl
  | str t => rfl
  | list xs => rfl

theorem esphomeCandidate_of_map {doc : Yaml} {ekvs : List (String × Yaml)}
    (n1 : Option Yaml) (h : dictGet doc "esphome" = some (.map ekvs)) :
    esphomeCandidate doc n1 = ekvs.lookup "name" := by
  simp [esphomeCandidate, h]

theorem esphomeCandidate_of_nonmap {doc : Yaml} {e : Yaml} (n1 : Option Yaml)
    (h : dictGet doc "esphome" = some e) (he : ∀ ekvs, e ≠ .map ekvs) :
    esphomeCandidate doc n1 = n1 := by
  unfold esphomeCandidate
  rw [h]
  cases e with
  | map ekvs => exact absurd rfl (he ekvs)
  | null => rfl
  | bool b => rfl
  | int n => rfl
  | str t => rfl
  | list xs => rfl

theorem find_fst_of_subs_truthy {doc : Yaml} {v : Yaml} (stem : String)
    (h : subsCandidate doc = some v) (ht : pyTruthy v = true) :
    (find_device_identity doc stem).1 = pyStr v := by
  simp [find_device_identity, h, truthyOpt, ht]

theorem find_fst_of_esphome_truthy {doc : Yaml} {v : Yaml} (stem : String)
    (h1 : truthyOpt (subsCandidate doc) = false)
    (h2 : esphomeCandidate doc (subsCandidate doc) = some v)
    (ht : pyTruthy v = true) :
    (find_device_identity doc stem).1 = pyStr v := by
  simp [find_device_identity, h1, h2, ht]

theorem find_fst_fallback {doc : Yaml} (stem : String)
    (h1 : truthyOpt (subsCandidate doc) = false)
    (h2 : truthyOpt (esphomeCandidate doc (subsCandidate doc)) = false) :
    (find_device_identity doc stem).1 = stem := by
  simp only [find_device_identity, h1, if_false, Bool.false_eq_true]
  cases hE : esphomeCandidate doc (subsCandidate doc) with
  | none => rfl
  | some v =>
      rw [hE] at h2
      simp only [truthyOpt] at h2
      simp [h2]

theorem find_fst_cases (doc : Yaml) (stem : String) :
    (find_device_identity doc stem).1 = stem ∨
      ∃ v, pyTruthy v = true ∧ (find_device_identity doc stem).1 = pyStr v := by
  simp only [find_device_identity]
  cases hN : (if truthyOpt (subsCandidate doc) then subsCandidate doc
      else esphomeCandidate doc (subsCandidate doc)) with
  | none => left; rfl
  | some v =>
      cases hv : pyTruthy v with
      | false => left; simp [hv]
      | true => right; exact ⟨v, hv, by simp [hv]⟩

/-! ## Helper lemmas: the merge of `main` -/

theorem mem_dictSet {m : List (String × String)} {k v : String} {p : String × String}
    (h : p ∈ dictSet m k v) : p.1 = k ∨ p ∈ m := by
  induction m with
  | nil =>
      simp [dictSet] at h
      subst h
      exact Or.inl rfl
  | cons q rest ih =>
      obtain ⟨k0, v0⟩ := q
      unfold dictSet at h
      by_cases hq : (k0 == k) = true
      · rw [if_pos hq] at h
        rcases List.mem_cons.mp h with he | ht
        · subst he
          exact Or.inl (eq_of_beq hq)
        · exact Or.inr (List.mem_cons_of_mem _ ht)
      · rw [if_neg hq] at h
        rcases List.mem_cons.mp h with he | ht
        · subst he
          exact Or.inr (List.mem_cons_self _ _)
        · rcases ih ht with h1 | h2
          · exact Or.inl h1
          · exact Or.inr (List.mem_cons_of_mem _ h2)

theorem lookup_dictSet_ne {m : List (String × String)} {k1 k2 v : String}
    (h : k1 ≠ k2) : (dictSet m k2 v).lookup k1 = m.lookup k1 := by
  induction m with
  | nil => simp [dictSet, List.lookup, beq_eq_false_iff_ne.mpr h]
  | cons q rest ih =>
      obtain ⟨k0, v0⟩ := q
      unfold dictSet
      by_cases hq : (k0 == k2) = true
      · rw [if_pos hq]
        have h10 : (k1 == k0) = false := by
          rw [eq_of_beq hq]
          exact beq_eq_false_iff_ne.mpr h
        simp [List.lookup, h10]
      · rw [if_neg hq]
        by_cases h10 : (k1 == k0) = true
        · simp [List.lookup, h10]
        · simp only [Bool.not_eq_true] at h10
          simp [List.lookup, h10, ih]

theorem lookup_dictUpdate_preserve {k v : String} :
    ∀ (adds m : List (String × String)), m.lookup k = some v →
      (∀ p ∈ adds, p.1 ≠ k) → (dictUpdate m adds).lookup k = some v
  | [], m, hm, _ => hm
  | p :: rest, m, hm, hp => by
      have hne : k ≠ p.1 := fun e => hp p (List.mem_cons_self _ _) e.symm
      have step : (dictSet m p.1 p.2).lookup k = some v := by
        rw [lookup_dictSet_ne hne]
        exact hm
      exact lookup_dictUpdate_preserve rest (dictSet m p.1 p.2) step
        (fun q hq => hp q (List.mem_cons_of_mem _ hq))

theorem buildFold_mem {existing : List (String × String)} {mode : Mode}
    {sec : String} :
    ∀ (devices : List (Yaml × String)) (acc : List (String × String))
      (p : String × String),
      p ∈ devices.foldl (buildStep existing mode sec) acc →
      p ∈ acc ∨ existing.lookup p.1 = none
  | [], _, _, h => Or.inl h
  | item :: rest, acc, p, h => by
      rcases buildFold_mem rest (buildStep existing mode sec acc item) p h with
        h1 | h2
      · unfold buildStep at h1
        obtain ⟨doc, stem⟩ := item
        cases doc with
        | map kvs =>
            simp only at h1
            by_cases hk :
              (existing.lookup (secretKeyName mode
                (find_device_identity (.map kvs) stem).1)).isSome = true
            · rw [if_pos hk] at h1
              exact Or.inl h1
            · rw [if_neg hk] at h1
              rcases mem_dictSet h1 with he | hm
              · right
                rw [he]
                exact Option.not_isSome_iff_eq_none.mp hk
              · exact Or.inl hm
        | null => exact Or.inl h1
        | bool b => exact Or.inl h1
        | int n => exact Or.inl h1
        | str s => exact Or.inl h1
        | list xs => exact Or.inl h1
      · exact Or.inr h2

/-! ## The claims -/

/-- Claim C1: `derive_api_key(device_name, master_secret)` is the
standard base64 encoding (padding included) of the 32-byte digest
HMAC-SHA256(key = master_secret, message = UTF-8 of `"api:" ++
device_name`); `derive_ota_password` derives its digest the same way
with label `"ota"`; both are pure deterministic functions, identical
across any two invocations. -/
theorem claim_C1 : ∀ (d : String) (s : BytesLike),
    derive_api_key d s = b64encode (hmacSha256 (_as_bytes s) (utf8Encode ("api:" ++ d)))
    ∧ (∀ len, derive_ota_password d s len =
        String.mk ((b64encodeList
          (hmacSha256 (_as_bytes s) (utf8Encode ("ota:" ++ d)))).take (max 8 len)))
    ∧ (hmacSha256 (_as_bytes s) (utf8Encode ("api:" ++ d))).length = 32
    ∧ derive_api_key d s = derive_api_key d s
    ∧ ∀ len, derive_ota_password d s len = derive_ota_password d s len :=
  fun _ _ => ⟨rfl, fun _ => rfl, hmacSha256_length _ _, rfl, fun _ => rfl⟩

/-- Claim C10: `derive_api_key` always returns exactly 44 characters
(base64 of 32 bytes, with padding), and `derive_ota_password` at the
default length 32 returns exactly 32 characters. -/
theorem claim_C10 : ∀ (d : String) (s : BytesLike),
    (derive_api_key d s).length = 44 ∧ (derive_ota_password d s 32).length = 32 := by
  intro d s
  refine ⟨derive_api_key_length d s, ?_⟩
  show ((b64encodeList (_derive "ota" d s)).take (max 8 32)).length = 32
  rw [List.length_take, b64_derive_length]
  decide

/-- Claim C5: `derive_ota_password` returns the base64 encoding of
the digest truncated to its first `max(8, length)` characters, the
full encoded string unmodified when it is shorter than that; for
`length = 32` the result has at least 8 and at most 32 characters,
and for `length = 4` it still has at least 8 characters. -/
theorem claim_C5 : ∀ (d : String) (s : BytesLike) (len : Nat),
    derive_ota_password d s len =
      String.mk ((b64encodeList (_derive "ota" d s)).take (max 8 len))
    ∧ ((b64encodeList (_derive "ota" d s)).length ≤ max 8 len →
        derive_ota_password d s len = b64encode (_derive "ota" d s))
    ∧ (8 ≤ (derive_ota_password d s 32).length ∧
        (derive_ota_password d s 32).length ≤ 32)
    ∧ 8 ≤ (derive_ota_password d s 4).length := by
  intro d s len
  have h44 := b64_derive_length "ota" d s
  have h32 : (derive_ota_password d s 32).length = 32 := by
    show ((b64encodeList (_derive "ota" d s)).take (max 8 32)).length = 32
    rw [List.length_take, h44]
    decide
  have h8 : (derive_ota_password d s 4).length = 8 := by
    show ((b64encodeList (_derive "ota" d s)).take (max 8 4)).length = 8
    rw [List.length_take, h44]
    decide
  refine ⟨rfl, ?_, ⟨by omega, by omega⟩, by omega⟩
  intro hle
  show String.mk ((b64encodeList (_derive "ota" d s)).take (max 8 len)) =
    String.mk (b64encodeList (_derive "ota" d s))
  rw [List.take_of_length_le hle]

/-- Witness for C5, at the concrete length 50 (larger than the
44-character encoded string, so the full string comes back). -/
theorem claim_C5_witness :
    (b64encodeList (_derive "ota" "d" (.str "s"))).length ≤ max 8 50
    ∧ derive_ota_password "d" (.str "s") 50 = b64encode (_derive "ota" "d" (.str "s")) := by
  have h : (b64encodeList (_derive "ota" "d" (.str "s"))).length ≤ max 8 50 := by
    rw [b64_derive_length]
    decide
  exact ⟨h, (claim_C5 "d" (.str "s") 50).2.1 h⟩

/-- Claim C9: a master secret given as a string is interchangeable
with the same secret given as its UTF-8 encoding in bytes (or in a
bytearray), for both derivation functions. -/
theorem claim_C9 : ∀ (d s : String) (len : Nat),
    derive_api_key d (.str s) = derive_api_key d (.bytes (utf8Encode s))
    ∧ derive_ota_password d (.str s) len =
        derive_ota_password d (.bytes (utf8Encode s)) len
    ∧ derive_api_key d (.str s) = derive_api_key d (.byteArr (utf8Encode s))
    ∧ derive_ota_password d (.str s) len =
        derive_ota_password d (.byteArr (utf8Encode s)) len :=
  fun _ _ _ => ⟨rfl, rfl, rfl, rfl⟩

/-- Claim C2: with the default (non-forced, and only implemented)
policy, every key of the existing mapping keeps its original value in
the merged result, and no existing key occurs among the newly built
entries. -/
theorem claim_C2 : ∀ (existing : List (String × String))
    (devices : List (Yaml × String)) (mode : Mode) (sec : String),
    (∀ k v, existing.lookup k = some v →
        (outMap existing mode sec devices).lookup k = some v)
    ∧ (∀ p ∈ buildNewKv existing mode sec devices, existing.lookup p.1 = none) := by
  intro existing devices mode sec
  have hkeys : ∀ p ∈ buildNewKv existing mode sec devices,
      existing.lookup p.1 = none := by
    intro p hp
    rcases buildFold_mem devices [] p hp with h | h
    · simp at h
    · exact h
  refine ⟨?_, hkeys⟩
  intro k v hk
  apply lookup_dictUpdate_preserve _ _ hk
  intro p hp e
  have h0 := hkeys p hp
  rw [e] at h0
  rw [h0] at hk
  cases hk

/-- Witness for C2: a device resolving to `dev` whose key `api-dev`
already exists keeps the old value in the merged result. -/
theorem claim_C2_witness :
    List.lookup "api-dev" (outMap [("api-dev", "OLD")] .api "master"
      [(.map [("esphome", .map [("name", .str "dev")])], "x")]) = some "OLD" :=
  (claim_C2 [("api-dev", "OLD")]
    [(.map [("esphome", .map [("name", .str "dev")])], "x")] .api "master").1
    "api-dev" "OLD" (by decide)

/-- Claim C3 (the code lacks the documented force mode): the skip of
an existing key is unconditional — the devices' key `api-dev` is
already present, the run builds no new entry, the merged result still
maps `api-dev` to the old value, and that value is not the one a
forced re-derivation would write. -/
theorem claim_C3 :
    secretKeyName .api
      (find_device_identity (.map [("esphome", .map [("name", .str "dev")])]) "x").1
      = "api-dev"
    ∧ buildNewKv [("api-dev", "OLD")] .api "master"
        [(.map [("esphome", .map [("name", .str "dev")])], "x")] = []
    ∧ outMap [("api-dev", "OLD")] .api "master"
        [(.map [("esphome", .map [("name", .str "dev")])], "x")] = [("api-dev", "OLD")]
    ∧ deriveValue .api "dev" "master" ≠ "OLD" := by
  refine ⟨by decide, by decide, by decide, ?_⟩
  intro h
  have h44 : (deriveValue .api "dev" "master").length = 44 :=
    derive_api_key_length "dev" (.str "master")
  rw [h] at h44
  exact absurd h44 (by decide)

/-- Claim C4: identity resolution follows the precedence
substitutions.name, substitutions.device_name, esphome.name,
fallback (a field matching when it holds a truthy value), and the
three concrete documents of the spec resolve to `a`, `b` and
`kitchen-light`. -/
theorem claim_C4 :
    (∀ (doc : Yaml) (stem : String),
      (∀ skvs v, dictGet doc "substitutions" = some (.map skvs) →
          skvs.lookup "name" = some v → pyTruthy v = true →
          (find_device_identity doc stem).1 = pyStr v)
      ∧ (∀ skvs v, dictGet doc "substitutions" = some (.map skvs) →
          truthyOpt (skvs.lookup "name") = false →
          skvs.lookup "device_name" = some v → pyTruthy v = true →
          (find_device_identity doc stem).1 = pyStr v)
      ∧ (∀ ekvs v, truthyOpt (subsCandidate doc) = false →
          dictGet doc "esphome" = some (.map ekvs) →
          ekvs.lookup "name" = some v → pyTruthy v = true →
          (find_device_identity doc stem).1 = pyStr v)
      ∧ (truthyOpt (subsCandidate doc) = false →
          truthyOpt (esphomeCandidate doc (subsCandidate doc)) = false →
          (find_device_identity doc stem).1 = stem))
    ∧ (find_device_identity (.map [("substitutions", .map [("name", .str "a")]),
          ("esphome", .map [("name", .str "b")])]) "f").1 = "a"
    ∧ (find_device_identity (.map [("esphome", .map [("name", .str "b")])]) "f").1 = "b"
    ∧ (find_device_identity (.map []) "kitchen-light").1 = "kitchen-light" := by
  refine ⟨?_, by decide, by decide, by decide⟩
  intro doc stem
  refine ⟨?_, ?_, ?_, find_fst_fallback stem⟩
  · intro skvs v h hn ht
    exact find_fst_of_subs_truthy stem (subsCandidate_of_name h hn ht) ht
  · intro skvs v h hn hd ht
    exact find_fst_of_subs_truthy stem (subsCandidate_of_devname h hn hd) ht
  · intro ekvs v hns h hn ht
    refine find_fst_of_esphome_truthy stem hns ?_ ht
    rw [esphomeCandidate_of_map _ h]
    exact hn

/-- Witness for C4: a document whose substitutions name is `kitchen`
resolves to `kitchen` through the first precedence rule. -/
theorem claim_C4_witness :
    (find_device_identity (.map [("substitutions", .map [("name", .str "kitchen")])])
      "f").1 = "kitchen" :=
  (claim_C4.1 (.map [("substitutions", .map [("name", .str "kitchen")])]) "f").1
    [("name", .str "kitchen")] (.str "kitchen") rfl rfl (by decide)

/-- Claim C6: the produced key name is exactly the kind token, a
hyphen, and the device name stripped of surrounding whitespace (a
name with no whitespace is kept verbatim, with no case
normalization); `Living Room` with kind api yields exactly
`api-Living Room`. -/
theorem claim_C6 :
    (∀ (mode : Mode) (d : String),
        secretKeyName mode d = modeString mode ++ "-" ++ pyStrip d)
    ∧ (∀ (mode : Mode) (d : String), (∀ c ∈ d.data, pyIsSpace c = false) →
        secretKeyName mode d = modeString mode ++ "-" ++ d)
    ∧ secretKeyName .api "Living Room" = "api-Living Room" := by
  refine ⟨fun mode d => rfl, ?_, by decide⟩
  intro mode d h
  unfold secretKeyName
  rw [pyStrip_eq_self h]

/-- Witness for C6: a whitespace-free device name passes through the
strip unchanged. -/
theorem claim_C6_witness : secretKeyName .api "Device-1" = "api-Device-1" :=
  claim_C6.2.1 .api "Device-1" (by decide)

/-- Counterexample to C7 as stated: in the document
`{substitutions: {name: ""}, esphome: {name: "b"}}` the key `name` is
present in the mapping-shaped `substitutions` with an empty-string
value, yet it does not win the precedence: resolution returns `b`,
not the empty string. -/
theorem claim_C7_cex :
    (find_device_identity (.map [("substitutions", .map [("name", .str "")]),
        ("esphome", .map [("name", .str "b")])]) "f").1 = "b"
    ∧ (find_device_identity (.map [("substitutions", .map [("name", .str "")]),
        ("esphome", .map [("name", .str "b")])]) "f").1 ≠ "" := by
  exact ⟨by decide, by decide⟩

/-- Claim C7 as amended: a field wins the precedence exactly when it
is a key of a mapping-shaped sub-value bound to a truthy value; a key
bound to a falsy value (such as the empty string) is passed over like
an absent key, and the chain falls through to the fallback without
error; a `substitutions` or `esphome` section that is present but not
mapping-shaped is treated as absent. -/
theorem claim_C7 :
    ∀ (doc : Yaml) (stem : String),
      (∀ skvs v, dictGet doc "substitutions" = some (.map skvs) →
          skvs.lookup "name" = some v → pyTruthy v = true →
          (find_device_identity doc stem).1 = pyStr v)
      ∧ (∀ skvs v, dictGet doc "substitutions" = some (.map skvs) →
          skvs.lookup "name" = some v → pyTruthy v = false →
          truthyOpt (skvs.lookup "device_name") = false →
          truthyOpt (esphomeCandidate doc (subsCandidate doc)) = false →
          (find_device_identity doc stem).1 = stem)
      ∧ (∀ s, dictGet doc "substitutions" = some s → (∀ skvs, s ≠ .map skvs) →
          subsCandidate doc = none)
      ∧ (∀ e n1, dictGet doc "esphome" = some e → (∀ ekvs, e ≠ .map ekvs) →
          esphomeCandidate doc n1 = n1) := by
  intro doc stem
  refine ⟨?_, ?_, ?_, ?_⟩
  · intro skvs v h hn ht
    exact find_fst_of_subs_truthy stem (subsCandidate_of_name h hn ht) ht
  · intro skvs v h hn hf hd he
    have hcand : subsCandidate doc = skvs.lookup "device_name" := by
      simp [subsCandidate, h, hn, truthyOpt, hf]
    have hsub : truthyOpt (subsCandidate doc) = false := by
      rw [hcand]
      exact hd
    exact find_fst_fallback stem hsub he
  · exact fun s h hs => subsCandidate_of_nonmap h hs
  · exact fun e n1 h he => esphomeCandidate_of_nonmap n1 h he

/-- Witness for C7: a document whose only name field is present but
empty falls through to the fallback. -/
theorem claim_C7_witness :
    (find_device_identity (.map [("substitutions", .map [("name", .str "")])])
      "fallback").1 = "fallback" :=
  (claim_C7 (.map [("substitutions", .map [("name", .str "")])]) "fallback").2.1
    [("name", .str "")] (.str "") rfl rfl (by decide) (by decide) (by decide)

/-- Claim C8: for every document and non-empty fallback, resolution
returns a non-empty string, and that string is either the fallback or
the Python string representation of a truthy winning value. -/
theorem claim_C8 : ∀ (doc : Yaml) (stem : String), stem ≠ "" →
    (find_device_identity doc stem).1 ≠ ""
    ∧ ((find_device_identity doc stem).1 = stem ∨
        ∃ v, pyTruthy v = true ∧ (find_device_identity doc stem).1 = pyStr v) := by
  intro doc stem hs
  rcases find_fst_cases doc stem with h | ⟨v, hv, h⟩
  · constructor
    · rw [h]
      exact hs
    · exact Or.inl h
  · constructor
    · rw [h]
      exact truthy_pyStr_ne_empty hv
    · exact Or.inr ⟨v, hv, h⟩

/-- Witness for C8: the empty document with fallback `kitchen-light`
resolves to a non-empty name. -/
theorem claim_C8_witness :
    (find_device_identity (.map []) "kitchen-light").1 ≠ "" :=
  (claim_C8 (.map []) "kitchen-light" (by decide)).1

end EsphomeKeymaker
